import Mathlib

/-!
Verification of the browser connection-lifecycle manager (BrowserManager),
the free-port allocator (getFreePort in packages/core/src/utils/net.ts) and
the key-press tools (BrowserTools) of this repository.

The TypeScript code is shallowly embedded: the mutable fields of a
BrowserManager instance become an explicit `Session` record, the external
world (OS port allocation, Playwright browser liveness, the MCP client
registry and client connection states) becomes an explicit `World` record,
and every method is a pure function from `Session × World` to an `Outcome`
carrying the result (or the propagated error), the updated session and
world, and a trace of the external calls performed.  Opaque external
objects (browsers, pages, MCP clients) are represented by numeric ids
drawn from a freshness counter in the world.
-/

namespace GeminiCli

/-! ## Model of getFreePort (packages/core/src/utils/net.ts) -/

/-- Result of node's server.address(): an AddressInfo with a numeric port,
a string (Unix-socket style) address, or null. -/
inductive SockAddr where
  | ipPort (port : Nat)
  | unixPath (s : String)
  | nullAddr
deriving DecidableEq

/-- Errors of the port allocator: the socket emitted an error event, or no
usable numeric port could be read back (the code's 'Failed to get port'). -/
inductive AllocError where
  | socketError
  | noPort
deriving DecidableEq

/-- Observable steps of one getFreePort call. -/
inductive NetEvent where
  | listen (port : Nat)
  | closeSock
  | resolved (p : Nat)
  | rejected
deriving DecidableEq

/-- The port the callback reads back:
typeof address === 'string' ? 0 : address?.port. -/
def addrPort : SockAddr → Option Nat
  | .unixPath _ => some 0
  | .ipPort p => some p
  | .nullAddr => none

/-- One run of getFreePort, parameterised by whether the socket errors and
by the address the OS reports.  Mirrors net.ts lines 14-31: listen on port
0, read back the address, close the socket, then resolve the port if it is
truthy and reject otherwise. -/
def getFreePortRun (listenErr : Bool) (a : SockAddr) :
    Except AllocError Nat × List NetEvent :=
  if listenErr then
    (Except.error AllocError.socketError, [NetEvent.rejected])
  else
    match addrPort a with
    | some p =>
        if p ≠ 0 then
          (Except.ok p, [NetEvent.listen 0, NetEvent.closeSock, NetEvent.resolved p])
        else
          (Except.error AllocError.noPort,
            [NetEvent.listen 0, NetEvent.closeSock, NetEvent.rejected])
    | none =>
        (Except.error AllocError.noPort,
          [NetEvent.listen 0, NetEvent.closeSock, NetEvent.rejected])

/-! ## Data model of the BrowserManager -/

/-- The configuration the manager reads: browserAgentSettings?.headless and
whether config.getMcpClientManager() returns a manager. -/
structure Config where
  headless? : Option Bool
  hasMcpManager : Bool
deriving DecidableEq

/-- Behaviour of one chromium.launch/newContext/newPage sequence:
every step succeeds, chromium.launch itself rejects, or launch succeeds
but context/page creation rejects (browser assigned, page not). -/
inductive LaunchBehavior where
  | ok
  | launchThrows
  | pageThrows
deriving DecidableEq

/-- Behaviour of mcpManager.maybeDiscoverMcpServer: it rejects, it succeeds
and registers a client (with the given initial status), or it succeeds
without registering anything. -/
inductive DiscoverBehavior where
  | registers (initialStatus : String)
  | throws
  | noop
deriving DecidableEq

/-- The external world: the queue of allocator responses (none = the
allocation rejects), a freshness counter for ids, the set of connected
browsers, the MCP registry (name to client id), each client's status
string, and the outcome switches for launch, discovery, connect and
callTool. -/
structure World where
  portQueue : List (Option Nat)
  nextId : Nat
  alive : List Nat
  registry : List (String × Nat)
  clientStatus : List (Nat × String)
  launchBehavior : LaunchBehavior
  discoverBehavior : DiscoverBehavior
  connectOk : Bool
  callToolOk : Bool
deriving DecidableEq

/-- The four mutable fields of a BrowserManager instance. -/
structure Session where
  mcpClient : Option Nat
  browser : Option Nat
  page : Option Nat
  remoteDebuggingPort : Option Nat
deriving DecidableEq

/-- A freshly constructed manager: all four fields undefined. -/
def Session.empty : Session := ⟨none, none, none, none⟩

/-- browser.isConnected() in the world. -/
def World.isConnected (w : World) (b : Nat) : Bool := w.alive.contains b

/-- client.getStatus() in the world (unknown clients read as not connected,
matching a client object that has never connected). -/
def World.statusOf (w : World) (c : Nat) : String :=
  match w.clientStatus.lookup c with
  | some st => st
  | none => "disconnected"

/-- mcpManager.getClient(name). -/
def World.getClient (w : World) (name : String) : Option Nat :=
  w.registry.lookup name

/-- External death of a browser process: it stops reporting connected.
The manager itself never performs this step. -/
def World.killBrowser (w : World) (b : Nat) : World :=
  { w with alive := w.alive.filter (fun x => x != b) }

/-- The external calls the manager performs, in order. -/
inductive Event where
  | portAlloc (result : Option Nat)
  | launch (headless : Bool) (args : List String)
  | discover (name : String) (command : String) (args : List String)
  | clientConnect (c : Nat)
  | callTool (tool : String) (args : List (String × String))
deriving DecidableEq

/-- The errors the embedded methods propagate. -/
inductive BmError where
  | allocationError
  | launchError
  | mcpManagerUnavailable
  | clientInitError
  | connectError
  | pageNotAvailable
  | callToolError
deriving DecidableEq

/-- Result of one method call: the value or propagated error, the session
and world after the call, and the trace of external calls made. -/
structure Outcome (α : Type) where
  result : Except BmError α
  session : Session
  world : World
  trace : List Event

instance {ε α : Type} [DecidableEq ε] [DecidableEq α] :
    DecidableEq (Except ε α) := fun x y =>
  match x, y with
  | .ok a, .ok b => decidable_of_iff (a = b) (by simp)
  | .ok _, .error _ => isFalse (by simp)
  | .error _, .ok _ => isFalse (by simp)
  | .error e, .error f => decidable_of_iff (e = f) (by simp)

instance {α : Type} [DecidableEq α] : DecidableEq (Outcome α) := fun a b =>
  decidable_of_iff
    (a.result = b.result ∧ a.session = b.session ∧ a.world = b.world ∧
      a.trace = b.trace)
    (by cases a; cases b; simp)

/-! ## The lifecycle stages (BrowserManager, src/unnamed/part_000) -/

/-- JavaScript truthiness of this.remoteDebuggingPort: undefined and 0 are
falsy. -/
def portTruthy : Option Nat → Bool
  | none => false
  | some p => p != 0

/-- One call to the port allocator: consume the next queued response.
An empty queue also rejects. -/
def allocCall (w : World) : Except BmError Nat × World × List Event :=
  match w.portQueue with
  | [] => (Except.error BmError.allocationError, w, [Event.portAlloc none])
  | r :: rest =>
      match r with
      | some p =>
          (Except.ok p, { w with portQueue := rest }, [Event.portAlloc (some p)])
      | none =>
          (Except.error BmError.allocationError, { w with portQueue := rest },
            [Event.portAlloc none])

/-- Allocate a port and store it (this.remoteDebuggingPort = await
getFreePort()). -/
def allocAssign (s : Session) (w : World) : Outcome Nat :=
  match allocCall w with
  | (Except.ok p, w', tr) =>
      ⟨Except.ok p, { s with remoteDebuggingPort := some p }, w', tr⟩
  | (Except.error e, w', tr) => ⟨Except.error e, s, w', tr⟩

/-- Port stage of ensureBrowserLaunched (lines 51-55): allocate only when
no truthy port is stored, then read the stored port. -/
def portStage (s : Session) (w : World) : Outcome Nat :=
  if portTruthy s.remoteDebuggingPort then
    ⟨Except.ok (s.remoteDebuggingPort.getD 0), s, w, []⟩
  else
    allocAssign s w

/-- The argument vector passed to chromium.launch (line 77). -/
def launchArgs (port : Nat) : List String :=
  ["--remote-debugging-port=" ++ toString port, "--window-size=1024,1024"]

/-- launchBrowser (lines 68-86): read headless from configuration
(default false), launch the browser, open a context and a page.  On
success the new browser id and page id replace the stored ones; if
chromium.launch rejects nothing is assigned; if context/page creation
rejects only the browser is assigned. -/
def launchBrowser (cfg : Config) (s : Session) (w : World) (port : Nat) :
    Outcome Unit :=
  match w.launchBehavior with
  | .launchThrows =>
      ⟨Except.error BmError.launchError, s, w,
        [Event.launch (cfg.headless?.getD false) (launchArgs port)]⟩
  | .pageThrows =>
      ⟨Except.error BmError.launchError,
        { s with browser := some w.nextId },
        { w with nextId := w.nextId + 1, alive := w.nextId :: w.alive },
        [Event.launch (cfg.headless?.getD false) (launchArgs port)]⟩
  | .ok =>
      ⟨Except.ok (),
        { s with browser := some w.nextId, page := some (w.nextId + 1) },
        { w with nextId := w.nextId + 2, alive := w.nextId :: w.alive },
        [Event.launch (cfg.headless?.getD false) (launchArgs port)]⟩

/-- Browser stage of ensureBrowserLaunched (lines 57-60): launch only when
no browser is stored or the stored one is not connected. -/
def browserStage (cfg : Config) (s : Session) (w : World) (port : Nat) :
    Outcome Unit :=
  match s.browser with
  | some b =>
      if w.isConnected b then ⟨Except.ok (), s, w, []⟩
      else launchBrowser cfg s w port
  | none => launchBrowser cfg s w port

/-- The client name derived from the port (line 96). -/
def clientName (port : Nat) : String :=
  "chrome-devtools-" ++ toString port

/-- The registration arguments (lines 107-112). -/
def mcpArgs (port : Nat) : List String :=
  ["-y", "chrome-devtools-mcp@latest", "--browser-url",
    "http://127.0.0.1:" ++ toString port]

/-- Tail of connectMcp (lines 126-130): connect the resolved client if its
status is not connected, then store it. -/
def connectAndStore (s : Session) (w : World) (c : Nat) (tr : List Event) :
    Outcome Unit :=
  if w.statusOf c = "connected" then
    ⟨Except.ok (), { s with mcpClient := some c }, w, tr⟩
  else
    if w.connectOk then
      ⟨Except.ok (), { s with mcpClient := some c },
        { w with clientStatus := (c, "connected") :: w.clientStatus },
        tr ++ [Event.clientConnect c]⟩
    else
      ⟨Except.error BmError.connectError, s, w, tr ++ [Event.clientConnect c]⟩

/-- connectMcp (lines 88-131): require the manager, look the client up by
the port-derived name, register it if absent, fail if it is still absent,
connect it if not connected, store it. -/
def connectMcp (cfg : Config) (s : Session) (w : World) (port : Nat) :
    Outcome Unit :=
  if cfg.hasMcpManager then
    match w.getClient (clientName port) with
    | some c => connectAndStore s w c []
    | none =>
        match w.discoverBehavior with
        | .throws =>
            ⟨Except.error BmError.clientInitError, s, w,
              [Event.discover (clientName port) "npx" (mcpArgs port)]⟩
        | .noop =>
            ⟨Except.error BmError.clientInitError, s, w,
              [Event.discover (clientName port) "npx" (mcpArgs port)]⟩
        | .registers st =>
            connectAndStore s
              { w with nextId := w.nextId + 1,
                       registry := (clientName port, w.nextId) :: w.registry,
                       clientStatus := (w.nextId, st) :: w.clientStatus }
              w.nextId
              [Event.discover (clientName port) "npx" (mcpArgs port)]
  else
    ⟨Except.error BmError.mcpManagerUnavailable, s, w, []⟩

/-- Client stage of ensureBrowserLaunched (lines 62-65): connect only when
no client is stored or the stored one is not connected. -/
def clientStage (cfg : Config) (s : Session) (w : World) (port : Nat) :
    Outcome Unit :=
  match s.mcpClient with
  | some c =>
      if w.statusOf c = "connected" then ⟨Except.ok (), s, w, []⟩
      else connectMcp cfg s w port
  | none => connectMcp cfg s w port

/-- The browser and client stages run after the port stage resolved the
port (lines 57-65), the browser stage's failure propagating before the
client stage runs. -/
def afterPort (cfg : Config) (s1 : Session) (w1 : World) (port : Nat) :
    Outcome Unit :=
  match browserStage cfg s1 w1 port with
  | ⟨Except.error e, s2, w2, tr2⟩ => ⟨Except.error e, s2, w2, tr2⟩
  | ⟨Except.ok _, s2, w2, tr2⟩ =>
      match clientStage cfg s2 w2 port with
      | ⟨r, s3, w3, tr3⟩ => ⟨r, s3, w3, tr2 ++ tr3⟩

/-- ensureBrowserLaunched (lines 50-66): port stage, then browser stage,
then client stage, each failure propagating immediately. -/
def ensureBrowserLaunched (cfg : Config) (s : Session) (w : World) :
    Outcome Unit :=
  match portStage s w with
  | ⟨Except.error e, s1, w1, tr1⟩ => ⟨Except.error e, s1, w1, tr1⟩
  | ⟨Except.ok port, s1, w1, tr1⟩ =>
      match afterPort cfg s1 w1 port with
      | ⟨r, s2, w2, tr2⟩ => ⟨r, s2, w2, tr1 ++ tr2⟩

/-- ensureConnection (lines 45-48) just delegates. -/
def ensureConnection (cfg : Config) (s : Session) (w : World) : Outcome Unit :=
  ensureBrowserLaunched cfg s w

/-- getMcpClient (lines 22-32): fast path when a stored client reports
connected, otherwise ensure and return the stored client or fail. -/
def getMcpClient (cfg : Config) (s : Session) (w : World) : Outcome Nat :=
  if s.mcpClient.isSome ∧ w.statusOf (s.mcpClient.getD 0) = "connected" then
    ⟨Except.ok (s.mcpClient.getD 0), s, w, []⟩
  else
    match ensureConnection cfg s w with
    | ⟨Except.error e, s', w', tr⟩ => ⟨Except.error e, s', w', tr⟩
    | ⟨Except.ok _, s', w', tr⟩ =>
        match s'.mcpClient with
        | some c => ⟨Except.ok c, s', w', tr⟩
        | none => ⟨Except.error BmError.clientInitError, s', w', tr⟩

/-- getPage (lines 34-43): ensure only when no page is stored, then return
the stored page or fail. -/
def getPage (cfg : Config) (s : Session) (w : World) : Outcome Nat :=
  match s.page with
  | some pg => ⟨Except.ok pg, s, w, []⟩
  | none =>
      match ensureBrowserLaunched cfg s w with
      | ⟨Except.error e, s', w', tr⟩ => ⟨Except.error e, s', w', tr⟩
      | ⟨Except.ok _, s', w', tr⟩ =>
          match s'.page with
          | some pg => ⟨Except.ok pg, s', w', tr⟩
          | none => ⟨Except.error BmError.pageNotAvailable, s', w', tr⟩

/-- Whether a net event is the listen step. -/
def NetEvent.isListen : NetEvent → Bool
  | .listen _ => true
  | .closeSock => false
  | .resolved _ => false
  | .rejected => false

/-! ## Trace observations -/

def Event.isAlloc : Event → Bool
  | .portAlloc _ => true
  | .launch _ _ => false
  | .discover _ _ _ => false
  | .clientConnect _ => false
  | .callTool _ _ => false

def Event.isLaunch : Event → Bool
  | .portAlloc _ => false
  | .launch _ _ => true
  | .discover _ _ _ => false
  | .clientConnect _ => false
  | .callTool _ _ => false

def Event.isDiscover : Event → Bool
  | .portAlloc _ => false
  | .launch _ _ => false
  | .discover _ _ _ => true
  | .clientConnect _ => false
  | .callTool _ _ => false

def Event.isClientConnect : Event → Bool
  | .portAlloc _ => false
  | .launch _ _ => false
  | .discover _ _ _ => false
  | .clientConnect _ => true
  | .callTool _ _ => false

def Event.isCallTool : Event → Bool
  | .portAlloc _ => false
  | .launch _ _ => false
  | .discover _ _ _ => false
  | .clientConnect _ => false
  | .callTool _ _ => true

/-- How many times the port allocator was invoked in a trace. -/
def allocCount (tr : List Event) : Nat := (tr.filter Event.isAlloc).length

/-- The launch events of a trace. -/
def launchEvents (tr : List Event) : List Event := tr.filter Event.isLaunch

/-- The registration events of a trace. -/
def discoverEvents (tr : List Event) : List Event := tr.filter Event.isDiscover

/-- The client-connect events of a trace. -/
def connectEvents (tr : List Event) : List Event :=
  tr.filter Event.isClientConnect

/-- The protocol tool calls of a trace. -/
def callToolEvents (tr : List Event) : List Event := tr.filter Event.isCallTool

/-- Iterate ensureBrowserLaunched, threading session and world and
concatenating the traces; a failed call's error is dropped, as with a
caller that catches and calls again. -/
def ensureIter (cfg : Config) : Nat → Session → World →
    Session × World × List Event
  | 0, s, w => (s, w, [])
  | n + 1, s, w =>
      match ensureBrowserLaunched cfg s w with
      | ⟨_, s', w', tr⟩ =>
          match ensureIter cfg n s' w' with
          | (s'', w'', tr') => (s'', w'', tr ++ tr')

/-! ## BrowserTools (src/unnamed/part_001) -/

/-- The normalized result contract of the interaction tools. -/
structure ToolResult where
  output : Option String
  error : Option String
  url : Option String
deriving DecidableEq

/-- client.callTool(tool, args): one protocol call, which either resolves
or rejects as the world dictates. -/
def callTool (s : Session) (w : World) (tool : String)
    (args : List (String × String)) : Outcome Unit :=
  if w.callToolOk then
    ⟨Except.ok (), s, w, [Event.callTool tool args]⟩
  else
    ⟨Except.error BmError.callToolError, s, w, [Event.callTool tool args]⟩

/-- pressKey (part_001 lines 354-358): obtain the client, issue one
press_key protocol call, return the fixed output string. -/
def pressKey (cfg : Config) (s : Session) (w : World) (key : String) :
    Outcome ToolResult :=
  match getMcpClient cfg s w with
  | ⟨Except.error e, s', w', tr⟩ => ⟨Except.error e, s', w', tr⟩
  | ⟨Except.ok _, s', w', tr⟩ =>
      match callTool s' w' "press_key" [("key", key)] with
      | ⟨Except.error e, s'', w'', tr2⟩ => ⟨Except.error e, s'', w'', tr ++ tr2⟩
      | ⟨Except.ok _, s'', w'', tr2⟩ =>
          ⟨Except.ok ⟨some ("Pressed key \"" ++ key ++ "\""), none, none⟩,
            s'', w'', tr ++ tr2⟩

/-- keyCombination (part_001 lines 366-369): delegates to pressKey. -/
def keyCombination (cfg : Config) (s : Session) (w : World) (keys : String) :
    Outcome ToolResult :=
  pressKey cfg s w keys

/-! ## Reachable manager states

A state is reachable when it arises from a fresh manager by public calls
(ensureConnection, getPage, getMcpClient) interleaved with the external
events the spec admits: a browser process dying and a client's status
changing. -/

inductive Reachable (cfg : Config) : Session → World → Prop where
  | init (w : World) : Reachable cfg Session.empty w
  | ensure {s : Session} {w : World} : Reachable cfg s w →
      Reachable cfg (ensureConnection cfg s w).session
        (ensureConnection cfg s w).world
  | page {s : Session} {w : World} : Reachable cfg s w →
      Reachable cfg (getPage cfg s w).session (getPage cfg s w).world
  | client {s : Session} {w : World} : Reachable cfg s w →
      Reachable cfg (getMcpClient cfg s w).session (getMcpClient cfg s w).world
  | kill {s : Session} {w : World} (b : Nat) : Reachable cfg s w →
      Reachable cfg s (w.killBrowser b)
  | statusChange {s : Session} {w : World} (c : Nat) (st : String) :
      Reachable cfg s w →
      Reachable cfg s { w with clientStatus := (c, st) :: w.clientStatus }

/-! ## Injectivity of decimal printing

The client name is a template string over the port, so its injectivity
reduces to the injectivity of Nat.repr.  We characterise the fuelled
printer Nat.toDigitsCore by a structural one and verify a decimal
round trip. -/

/-- Decimal digits of a number, most significant first: the list
Nat.toDigitsCore produces once the fuel suffices. -/
def decRep (n : Nat) : List Char :=
  if h : n / 10 = 0 then [Nat.digitChar (n % 10)]
  else decRep (n / 10) ++ [Nat.digitChar (n % 10)]
decreasing_by
  exact Nat.div_lt_self (Nat.pos_of_ne_zero fun h0 => h (by simp [h0]))
    (by norm_num)

/-- Numeric value of a decimal digit character. -/
def chVal (c : Char) : Nat := c.toNat - 48

/-- Horner evaluation of a digit list continuing from accumulator a. -/
def valFrom (a : Nat) (ds : List Char) : Nat :=
  ds.foldl (fun x c => 10 * x + chVal c) a

theorem chVal_digitChar {d : Nat} (h : d < 10) :
    chVal (Nat.digitChar d) = d := by
  interval_cases d <;> rfl

theorem valFrom_decRep (n : Nat) :
    ∀ a : Nat, valFrom a (decRep n) = a * 10 ^ (decRep n).length + n := by
  induction n using Nat.strong_induction_on with
  | _ n ih =>
    intro a
    rw [decRep]
    by_cases h : n / 10 = 0
    · have hn : n < 10 := by omega
      simp only [h, dif_pos, valFrom, List.foldl_cons, List.foldl_nil,
        List.length_cons, List.length_nil]
      rw [chVal_digitChar (Nat.mod_lt n (by norm_num)),
        Nat.mod_eq_of_lt hn]
      ring
    · have hlt : n / 10 < n :=
        Nat.div_lt_self (Nat.pos_of_ne_zero fun h0 => h (by simp [h0]))
          (by norm_num)
      simp only [h, dif_neg, not_false_iff, valFrom, List.foldl_append,
        List.foldl_cons, List.foldl_nil, List.length_append,
        List.length_cons, List.length_nil]
      have ihv := ih (n / 10) hlt a
      simp only [valFrom] at ihv
      rw [ihv, chVal_digitChar (Nat.mod_lt n (by norm_num))]
      have hdm : 10 * (n / 10) + n % 10 = n := Nat.div_add_mod n 10
      calc 10 * (a * 10 ^ (decRep (n / 10)).length + n / 10) + n % 10
          = a * 10 ^ ((decRep (n / 10)).length + (0 + 1)) +
              (10 * (n / 10) + n % 10) := by ring
        _ = a * 10 ^ ((decRep (n / 10)).length + (0 + 1)) + n := by rw [hdm]

/-- decRep is injective via the decimal round trip. -/
theorem decRep_injective : Function.Injective decRep := by
  intro m n h
  have hm := valFrom_decRep m 0
  have hn := valFrom_decRep n 0
  rw [h] at hm
  omega

/-- With enough fuel, Nat.toDigitsCore 10 computes decRep. -/
theorem toDigitsCore_eq_decRep :
    ∀ (fuel n : Nat) (ds : List Char), n < 10 ^ (fuel + 1) →
      Nat.toDigitsCore 10 (fuel + 1) n ds = decRep n ++ ds := by
  intro fuel
  induction fuel with
  | zero =>
      intro n ds h
      have h10 : n / 10 = 0 := Nat.div_eq_of_lt (by simpa using h)
      have step : Nat.toDigitsCore 10 1 n ds =
          if n / 10 = 0 then Nat.digitChar (n % 10) :: ds
          else Nat.toDigitsCore 10 0 (n / 10) (Nat.digitChar (n % 10) :: ds) :=
        rfl
      rw [step, if_pos h10, decRep]
      simp [h10]
  | succ f ihf =>
      intro n ds h
      have step : Nat.toDigitsCore 10 (f + 1 + 1) n ds =
          if n / 10 = 0 then Nat.digitChar (n % 10) :: ds
          else Nat.toDigitsCore 10 (f + 1) (n / 10)
            (Nat.digitChar (n % 10) :: ds) := rfl
      by_cases h10 : n / 10 = 0
      · rw [step, if_pos h10, decRep]
        simp [h10]
      · rw [step, if_neg h10]
        have hdiv : n / 10 < 10 ^ (f + 1) := by
          rw [Nat.div_lt_iff_lt_mul (by norm_num)]
          calc n < 10 ^ (f + 1 + 1) := h
            _ = 10 ^ (f + 1) * 10 := by ring
        rw [ihf (n / 10) (Nat.digitChar (n % 10) :: ds) hdiv]
        conv_rhs => rw [decRep]
        simp [h10]

/-- Nat.toDigits 10 agrees with decRep. -/
theorem toDigits_eq_decRep (n : Nat) : Nat.toDigits 10 n = decRep n := by
  have h : n < 10 ^ (n + 1) := by
    calc n < 10 ^ n := Nat.lt_pow_self (by norm_num) n
      _ ≤ 10 ^ (n + 1) := Nat.pow_le_pow_right (by norm_num) (Nat.le_succ n)
  have := toDigitsCore_eq_decRep n n [] h
  simpa [Nat.toDigits] using this

/-- Nat.repr is injective. -/
theorem natRepr_injective : Function.Injective Nat.repr := by
  intro m n h
  apply decRep_injective
  have hm : Nat.repr m = (decRep m).asString := by
    rw [Nat.repr, toDigits_eq_decRep]
  have hn : Nat.repr n = (decRep n).asString := by
    rw [Nat.repr, toDigits_eq_decRep]
  rw [hm, hn] at h
  simpa [List.asString] using congrArg String.data h

/-- Strings cancel on the left of an append. -/
theorem string_append_left_cancel {a b c : String} (h : a ++ b = a ++ c) :
    b = c := by
  have h2 := congrArg String.data h
  simp [String.data_append] at h2
  exact String.ext h2

/-! ## Stage lemmas -/

theorem allocCount_append (t1 t2 : List Event) :
    allocCount (t1 ++ t2) = allocCount t1 + allocCount t2 := by
  simp [allocCount, List.filter_append]

theorem launchEvents_append (t1 t2 : List Event) :
    launchEvents (t1 ++ t2) = launchEvents t1 ++ launchEvents t2 := by
  simp [launchEvents, List.filter_append]

theorem discoverEvents_append (t1 t2 : List Event) :
    discoverEvents (t1 ++ t2) = discoverEvents t1 ++ discoverEvents t2 := by
  simp [discoverEvents, List.filter_append]

theorem connectEvents_append (t1 t2 : List Event) :
    connectEvents (t1 ++ t2) = connectEvents t1 ++ connectEvents t2 := by
  simp [connectEvents, List.filter_append]

theorem callToolEvents_append (t1 t2 : List Event) :
    callToolEvents (t1 ++ t2) = callToolEvents t1 ++ callToolEvents t2 := by
  simp [callToolEvents, List.filter_append]

/-- With a truthy stored port the port stage is a pure read. -/
theorem portStage_stored (s : Session) (w : World)
    (h : portTruthy s.remoteDebuggingPort = true) :
    portStage s w = ⟨Except.ok (s.remoteDebuggingPort.getD 0), s, w, []⟩ := by
  simp [portStage, h]

/-- Without a truthy stored port the port stage performs one allocation
and stores the result. -/
theorem portStage_fresh (s : Session) (w : World) (p : Nat)
    (h : portTruthy s.remoteDebuggingPort = false)
    (hq : w.portQueue.head? = some (some p)) :
    portStage s w =
      ⟨Except.ok p, { s with remoteDebuggingPort := some p },
        { w with portQueue := w.portQueue.tail },
        [Event.portAlloc (some p)]⟩ := by
  cases hQ : w.portQueue with
  | nil => rw [hQ] at hq; simp at hq
  | cons r rest =>
      rw [hQ] at hq
      simp at hq
      subst hq
      simp [portStage, h, allocAssign, allocCall, hQ]

/-- Whenever the port stage succeeds it has stored the returned port,
touched nothing else in the session, consumed at most the allocator
queue in the world, and performed no launch, registration, connect or
protocol call. -/
theorem portStage_ok_spec (s : Session) (w : World) (p : Nat)
    (h : (portStage s w).result = Except.ok p) :
    (portStage s w).session = { s with remoteDebuggingPort := some p } ∧
    (portStage s w).world.nextId = w.nextId ∧
    (portStage s w).world.alive = w.alive ∧
    (portStage s w).world.registry = w.registry ∧
    (portStage s w).world.clientStatus = w.clientStatus ∧
    (portStage s w).world.launchBehavior = w.launchBehavior ∧
    (portStage s w).world.discoverBehavior = w.discoverBehavior ∧
    (portStage s w).world.connectOk = w.connectOk ∧
    launchEvents (portStage s w).trace = [] ∧
    discoverEvents (portStage s w).trace = [] ∧
    connectEvents (portStage s w).trace = [] ∧
    callToolEvents (portStage s w).trace = [] := by
  by_cases hT : portTruthy s.remoteDebuggingPort = true
  · rw [portStage_stored s w hT] at h ⊢
    cases hsp : s.remoteDebuggingPort with
    | none => rw [hsp] at hT; simp [portTruthy] at hT
    | some q =>
        rw [hsp] at h
        simp at h
        subst h
        obtain ⟨mc, br, pg, rp⟩ := s
        simp_all [launchEvents, discoverEvents, connectEvents,
          callToolEvents]
  · rw [Bool.not_eq_true] at hT
    cases hQ : w.portQueue with
    | nil => simp [portStage, hT, allocAssign, allocCall, hQ] at h
    | cons r rest =>
        cases r with
        | none => simp [portStage, hT, allocAssign, allocCall, hQ] at h
        | some q =>
            have hq : w.portQueue.head? = some (some q) := by simp [hQ]
            rw [portStage_fresh s w q hT hq] at h ⊢
            simp at h
            subst h
            simp [launchEvents, discoverEvents, connectEvents,
              callToolEvents, Event.isLaunch, Event.isDiscover,
              Event.isClientConnect, Event.isCallTool]

/-- launchBrowser assigns only the browser and page fields, pushes one
launch event, and leaves the allocator queue, registry and client states
alone. -/
theorem launchBrowser_spec (cfg : Config) (s : Session) (w : World)
    (port : Nat) :
    (launchBrowser cfg s w port).session.remoteDebuggingPort =
        s.remoteDebuggingPort ∧
    (launchBrowser cfg s w port).session.mcpClient = s.mcpClient ∧
    (launchBrowser cfg s w port).world.portQueue = w.portQueue ∧
    (launchBrowser cfg s w port).world.registry = w.registry ∧
    (launchBrowser cfg s w port).world.clientStatus = w.clientStatus ∧
    (launchBrowser cfg s w port).world.discoverBehavior =
        w.discoverBehavior ∧
    (launchBrowser cfg s w port).world.connectOk = w.connectOk ∧
    (launchBrowser cfg s w port).trace =
        [Event.launch (cfg.headless?.getD false) (launchArgs port)] := by
  cases hL : w.launchBehavior <;> simp [launchBrowser, hL]

/-- The browser stage never touches the port, client or allocator state
and performs no allocation, registration, connect or protocol call. -/
theorem browserStage_spec (cfg : Config) (s : Session) (w : World)
    (port : Nat) :
    (browserStage cfg s w port).session.remoteDebuggingPort =
        s.remoteDebuggingPort ∧
    (browserStage cfg s w port).session.mcpClient = s.mcpClient ∧
    (browserStage cfg s w port).world.portQueue = w.portQueue ∧
    (browserStage cfg s w port).world.registry = w.registry ∧
    (browserStage cfg s w port).world.clientStatus = w.clientStatus ∧
    (browserStage cfg s w port).world.discoverBehavior =
        w.discoverBehavior ∧
    (browserStage cfg s w port).world.connectOk = w.connectOk ∧
    allocCount (browserStage cfg s w port).trace = 0 ∧
    discoverEvents (browserStage cfg s w port).trace = [] ∧
    connectEvents (browserStage cfg s w port).trace = [] ∧
    callToolEvents (browserStage cfg s w port).trace = [] := by
  have hLB : ∀ (s' : Session) (w' : World),
      (launchBrowser cfg s' w' port).session.remoteDebuggingPort =
          s'.remoteDebuggingPort ∧
      (launchBrowser cfg s' w' port).session.mcpClient = s'.mcpClient ∧
      (launchBrowser cfg s' w' port).world.portQueue = w'.portQueue ∧
      (launchBrowser cfg s' w' port).world.registry = w'.registry ∧
      (launchBrowser cfg s' w' port).world.clientStatus =
          w'.clientStatus ∧
      (launchBrowser cfg s' w' port).world.discoverBehavior =
          w'.discoverBehavior ∧
      (launchBrowser cfg s' w' port).world.connectOk = w'.connectOk ∧
      allocCount (launchBrowser cfg s' w' port).trace = 0 ∧
      discoverEvents (launchBrowser cfg s' w' port).trace = [] ∧
      connectEvents (launchBrowser cfg s' w' port).trace = [] ∧
      callToolEvents (launchBrowser cfg s' w' port).trace = [] := by
    intro s' w'
    cases hL : w'.launchBehavior <;>
      simp [launchBrowser, hL, allocCount, discoverEvents, connectEvents,
        callToolEvents, Event.isAlloc, Event.isDiscover,
        Event.isClientConnect, Event.isCallTool]
  unfold browserStage
  cases hb : s.browser with
  | none => exact hLB s w
  | some b =>
      by_cases hc : w.isConnected b
      · simp [hc, allocCount, discoverEvents, connectEvents, callToolEvents]
      · simp only [hc, Bool.false_eq_true, if_false]
        exact hLB s w

/-- connectAndStore assigns only the client field, may append one
clientConnect event, and leaves the allocator queue, liveness set and
registry alone. -/
theorem connectAndStore_spec (s : Session) (w : World) (c : Nat)
    (tr : List Event) :
    (connectAndStore s w c tr).session.remoteDebuggingPort =
        s.remoteDebuggingPort ∧
    (connectAndStore s w c tr).session.browser = s.browser ∧
    (connectAndStore s w c tr).session.page = s.page ∧
    (connectAndStore s w c tr).world.portQueue = w.portQueue ∧
    (connectAndStore s w c tr).world.alive = w.alive ∧
    (connectAndStore s w c tr).world.launchBehavior = w.launchBehavior ∧
    allocCount (connectAndStore s w c tr).trace = allocCount tr ∧
    launchEvents (connectAndStore s w c tr).trace = launchEvents tr ∧
    discoverEvents (connectAndStore s w c tr).trace = discoverEvents tr ∧
    callToolEvents (connectAndStore s w c tr).trace =
        callToolEvents tr := by
  by_cases h : w.statusOf c = "connected" <;> by_cases hco : w.connectOk <;>
    simp [connectAndStore, h, hco, allocCount_append, launchEvents_append,
      discoverEvents_append, callToolEvents_append, allocCount,
      launchEvents, discoverEvents, callToolEvents, Event.isAlloc,
      Event.isLaunch, Event.isDiscover, Event.isCallTool]

/-- connectMcp assigns only the client field and performs no allocation,
launch or protocol call. -/
theorem connectMcp_spec (cfg : Config) (s : Session) (w : World)
    (port : Nat) :
    (connectMcp cfg s w port).session.remoteDebuggingPort =
        s.remoteDebuggingPort ∧
    (connectMcp cfg s w port).session.browser = s.browser ∧
    (connectMcp cfg s w port).session.page = s.page ∧
    (connectMcp cfg s w port).world.portQueue = w.portQueue ∧
    (connectMcp cfg s w port).world.alive = w.alive ∧
    (connectMcp cfg s w port).world.launchBehavior = w.launchBehavior ∧
    allocCount (connectMcp cfg s w port).trace = 0 ∧
    launchEvents (connectMcp cfg s w port).trace = [] ∧
    callToolEvents (connectMcp cfg s w port).trace = [] := by
  by_cases hm : cfg.hasMcpManager
  · rw [connectMcp, if_pos hm]
    cases hcl : w.getClient (clientName port) with
    | some c =>
        have h := connectAndStore_spec s w c []
        exact ⟨h.1, h.2.1, h.2.2.1, h.2.2.2.1, h.2.2.2.2.1, h.2.2.2.2.2.1,
          by rw [h.2.2.2.2.2.2.1]; rfl,
          by rw [h.2.2.2.2.2.2.2.1]; rfl,
          by rw [h.2.2.2.2.2.2.2.2.2]; rfl⟩
    | none =>
        cases hd : w.discoverBehavior with
        | throws =>
            exact ⟨rfl, rfl, rfl, rfl, rfl, rfl, rfl, rfl, rfl⟩
        | noop =>
            exact ⟨rfl, rfl, rfl, rfl, rfl, rfl, rfl, rfl, rfl⟩
        | registers st =>
            have h := connectAndStore_spec s
              { w with nextId := w.nextId + 1,
                       registry :=
                         (clientName port, w.nextId) :: w.registry,
                       clientStatus := (w.nextId, st) :: w.clientStatus,
                       discoverBehavior := DiscoverBehavior.registers st }
              w.nextId
              [Event.discover (clientName port) "npx" (mcpArgs port)]
            exact ⟨h.1, h.2.1, h.2.2.1, h.2.2.2.1, h.2.2.2.2.1,
              h.2.2.2.2.2.1,
              by rw [h.2.2.2.2.2.2.1]; rfl,
              by rw [h.2.2.2.2.2.2.2.1]; rfl,
              by rw [h.2.2.2.2.2.2.2.2.2]; rfl⟩
  · rw [connectMcp, if_neg hm]
    exact ⟨rfl, rfl, rfl, rfl, rfl, rfl, rfl, rfl, rfl⟩

/-- The client stage never touches the port, browser or page fields, the
allocator queue or the liveness set, and performs no allocation, launch
or protocol call. -/
theorem clientStage_spec (cfg : Config) (s : Session) (w : World)
    (port : Nat) :
    (clientStage cfg s w port).session.remoteDebuggingPort =
        s.remoteDebuggingPort ∧
    (clientStage cfg s w port).session.browser = s.browser ∧
    (clientStage cfg s w port).session.page = s.page ∧
    (clientStage cfg s w port).world.portQueue = w.portQueue ∧
    (clientStage cfg s w port).world.alive = w.alive ∧
    (clientStage cfg s w port).world.launchBehavior = w.launchBehavior ∧
    allocCount (clientStage cfg s w port).trace = 0 ∧
    launchEvents (clientStage cfg s w port).trace = [] ∧
    callToolEvents (clientStage cfg s w port).trace = [] := by
  cases hc : s.mcpClient with
  | none =>
      have he : clientStage cfg s w port = connectMcp cfg s w port := by
        simp [clientStage, hc]
      rw [he]
      exact connectMcp_spec cfg s w port
  | some c =>
      by_cases hst : w.statusOf c = "connected"
      · have he : clientStage cfg s w port = ⟨Except.ok (), s, w, []⟩ := by
          simp [clientStage, hc, hst]
        rw [he]
        exact ⟨rfl, rfl, rfl, rfl, rfl, rfl, rfl, rfl, rfl⟩
      · have he : clientStage cfg s w port = connectMcp cfg s w port := by
          simp [clientStage, hc, hst]
        rw [he]
        exact connectMcp_spec cfg s w port

/-- The browser-then-client composition never touches the stored port,
performs no allocation and no protocol call. -/
theorem afterPort_spec (cfg : Config) (s1 : Session) (w1 : World)
    (port : Nat) :
    (afterPort cfg s1 w1 port).session.remoteDebuggingPort =
        s1.remoteDebuggingPort ∧
    allocCount (afterPort cfg s1 w1 port).trace = 0 ∧
    callToolEvents (afterPort cfg s1 w1 port).trace = [] := by
  rcases hB : browserStage cfg s1 w1 port with ⟨rB, s2, w2, tr2⟩
  have hBs := browserStage_spec cfg s1 w1 port
  rw [hB] at hBs
  cases rB with
  | error e =>
      have hEq : afterPort cfg s1 w1 port = ⟨Except.error e, s2, w2, tr2⟩ := by
        unfold afterPort
        simp only [hB]
      rw [hEq]
      exact ⟨hBs.1, hBs.2.2.2.2.2.2.2.1, hBs.2.2.2.2.2.2.2.2.2.2⟩
  | ok u =>
      rcases hC : clientStage cfg s2 w2 port with ⟨rC, s3, w3, tr3⟩
      have hCs := clientStage_spec cfg s2 w2 port
      rw [hC] at hCs
      have hEq : afterPort cfg s1 w1 port = ⟨rC, s3, w3, tr2 ++ tr3⟩ := by
        unfold afterPort
        simp only [hB, hC]
      rw [hEq]
      refine ⟨hCs.1.trans hBs.1, ?_, ?_⟩
      · show allocCount (tr2 ++ tr3) = 0
        rw [allocCount_append]
        have h1 : allocCount tr2 = 0 := hBs.2.2.2.2.2.2.2.1
        have h2 : allocCount tr3 = 0 := hCs.2.2.2.2.2.2.1
        omega
      · show callToolEvents (tr2 ++ tr3) = []
        rw [callToolEvents_append]
        have h1 : callToolEvents tr2 = [] := hBs.2.2.2.2.2.2.2.2.2.2
        have h2 : callToolEvents tr3 = [] := hCs.2.2.2.2.2.2.2.2
        rw [h1, h2]
        rfl

/-- After a successful port stage, ensureBrowserLaunched has the resolved
port stored, its allocations are exactly the port stage's, and it makes no
protocol call. -/
theorem ensure_ok_port_spec (cfg : Config) (s : Session) (w : World) (p : Nat)
    (h : (portStage s w).result = Except.ok p) :
    (ensureBrowserLaunched cfg s w).session.remoteDebuggingPort = some p ∧
    allocCount (ensureBrowserLaunched cfg s w).trace =
        allocCount (portStage s w).trace ∧
    callToolEvents (ensureBrowserLaunched cfg s w).trace = [] := by
  have hPs := portStage_ok_spec s w p h
  rcases hP : portStage s w with ⟨rP, s1, w1, tr1⟩
  rw [hP] at h hPs
  simp at h
  subst h
  dsimp only at hPs
  have hA := afterPort_spec cfg s1 w1 p
  rcases hAP : afterPort cfg s1 w1 p with ⟨rA, s2, w2, tr2⟩
  rw [hAP] at hA
  dsimp only at hA
  have hEq : ensureBrowserLaunched cfg s w = ⟨rA, s2, w2, tr1 ++ tr2⟩ := by
    unfold ensureBrowserLaunched
    simp only [hP, hAP]
  rw [hEq]
  refine ⟨?_, ?_, ?_⟩
  · have h1 : s2.remoteDebuggingPort = s1.remoteDebuggingPort := hA.1
    have h2 : s1.remoteDebuggingPort = some p := by rw [hPs.1]
    exact h1.trans h2
  · show allocCount (tr1 ++ tr2) = allocCount tr1
    rw [allocCount_append, hA.2.1]
    omega
  · show callToolEvents (tr1 ++ tr2) = []
    rw [callToolEvents_append, hA.2.2, hPs.2.2.2.2.2.2.2.2.2.2.2]
    rfl

/-- With a nonzero port already stored, ensureBrowserLaunched keeps it and
never invokes the allocator, whatever the rest of the state. -/
theorem ensure_stored_port (cfg : Config) (s : Session) (w : World) (p : Nat)
    (hs : s.remoteDebuggingPort = some p) (hp : p ≠ 0) :
    (ensureBrowserLaunched cfg s w).session.remoteDebuggingPort = some p ∧
    allocCount (ensureBrowserLaunched cfg s w).trace = 0 := by
  have hT : portTruthy s.remoteDebuggingPort = true := by
    simp [portTruthy, hs, hp]
  have hres : (portStage s w).result = Except.ok p := by
    rw [portStage_stored s w hT]
    simp [hs]
  have h := ensure_ok_port_spec cfg s w p hres
  refine ⟨h.1, ?_⟩
  rw [h.2.1, portStage_stored s w hT]
  rfl

/-- With no truthy port stored and a successful allocation queued,
ensureBrowserLaunched invokes the allocator exactly once and stores the
result. -/
theorem ensure_fresh_port (cfg : Config) (s : Session) (w : World) (p : Nat)
    (h : portTruthy s.remoteDebuggingPort = false)
    (hq : w.portQueue.head? = some (some p)) :
    (ensureBrowserLaunched cfg s w).session.remoteDebuggingPort = some p ∧
    allocCount (ensureBrowserLaunched cfg s w).trace = 1 := by
  have hres : (portStage s w).result = Except.ok p := by
    rw [portStage_fresh s w p h hq]
  have hcom := ensure_ok_port_spec cfg s w p hres
  refine ⟨hcom.1, ?_⟩
  rw [hcom.2.1, portStage_fresh s w p h hq]
  rfl

/-- Iterating ensureBrowserLaunched from a state with a nonzero stored
port never invokes the allocator and keeps the port. -/
theorem ensureIter_stored (cfg : Config) (n : Nat) :
    ∀ (s : Session) (w : World) (p : Nat), s.remoteDebuggingPort = some p →
      p ≠ 0 →
      (ensureIter cfg n s w).1.remoteDebuggingPort = some p ∧
      allocCount (ensureIter cfg n s w).2.2 = 0 := by
  induction n with
  | zero => exact fun s w p hs hp => ⟨hs, rfl⟩
  | succ m ih =>
      intro s w p hs hp
      have hsp := ensure_stored_port cfg s w p hs hp
      rcases hE : ensureBrowserLaunched cfg s w with ⟨r, s', w', tr⟩
      rw [hE] at hsp
      have hrest := ih s' w' p hsp.1 hp
      rcases hI : ensureIter cfg m s' w' with ⟨s2, w2, tr2⟩
      rw [hI] at hrest
      have hEq : ensureIter cfg (m + 1) s w = (s2, w2, tr ++ tr2) := by
        unfold ensureIter
        simp only [hE, hI]
      rw [hEq]
      refine ⟨hrest.1, ?_⟩
      show allocCount (tr ++ tr2) = 0
      rw [allocCount_append]
      have h1 : allocCount tr = 0 := hsp.2
      have h2 : allocCount tr2 = 0 := hrest.2
      omega

/-- The port stage performs no protocol call. -/
theorem portStage_no_callTool (s : Session) (w : World) :
    callToolEvents (portStage s w).trace = [] := by
  by_cases hT : portTruthy s.remoteDebuggingPort = true
  · simp [portStage_stored s w hT, callToolEvents]
  · rw [Bool.not_eq_true] at hT
    cases hQ : w.portQueue with
    | nil =>
        simp [portStage, hT, allocAssign, allocCall, hQ, callToolEvents,
          Event.isCallTool]
    | cons r rest =>
        cases r <;>
          simp [portStage, hT, allocAssign, allocCall, hQ, callToolEvents,
            Event.isCallTool]

/-- The whole lifecycle ensure performs no protocol call. -/
theorem ensure_no_callTool (cfg : Config) (s : Session) (w : World) :
    callToolEvents (ensureBrowserLaunched cfg s w).trace = [] := by
  have htr1 := portStage_no_callTool s w
  rcases hP : portStage s w with ⟨rP, s1, w1, tr1⟩
  rw [hP] at htr1
  cases rP with
  | error e =>
      have hEq : ensureBrowserLaunched cfg s w = ⟨Except.error e, s1, w1, tr1⟩ := by
        unfold ensureBrowserLaunched
        simp only [hP]
      rw [hEq]
      exact htr1
  | ok p =>
      have hA := afterPort_spec cfg s1 w1 p
      rcases hAP : afterPort cfg s1 w1 p with ⟨rA, s2, w2, tr2⟩
      rw [hAP] at hA
      have hEq : ensureBrowserLaunched cfg s w = ⟨rA, s2, w2, tr1 ++ tr2⟩ := by
        unfold ensureBrowserLaunched
        simp only [hP, hAP]
      rw [hEq]
      show callToolEvents (tr1 ++ tr2) = []
      rw [callToolEvents_append, htr1, hA.2.2]
      rfl

/-- getMcpClient performs no protocol call itself. -/
theorem getMcpClient_no_callTool (cfg : Config) (s : Session) (w : World) :
    callToolEvents (getMcpClient cfg s w).trace = [] := by
  by_cases h : s.mcpClient.isSome ∧
      w.statusOf (s.mcpClient.getD 0) = "connected"
  · simp [getMcpClient, h, callToolEvents]
  · have hens := ensure_no_callTool cfg s w
    rcases hE : ensureConnection cfg s w with ⟨r, s', w', tr⟩
    have htr : callToolEvents tr = [] := by
      rw [show ensureBrowserLaunched cfg s w = ⟨r, s', w', tr⟩ from hE] at hens
      exact hens
    cases r with
    | error e =>
        have hg : getMcpClient cfg s w = ⟨Except.error e, s', w', tr⟩ := by
          simp [getMcpClient, h, hE]
        rw [hg]
        exact htr
    | ok u =>
        cases hc : s'.mcpClient with
        | some c =>
            have hg : getMcpClient cfg s w = ⟨Except.ok c, s', w', tr⟩ := by
              simp [getMcpClient, h, hE, hc]
            rw [hg]
            exact htr
        | none =>
            have hg : getMcpClient cfg s w =
                ⟨Except.error BmError.clientInitError, s', w', tr⟩ := by
              simp [getMcpClient, h, hE, hc]
            rw [hg]
            exact htr

/-! ## The page-implies-browser invariant across reachable states -/

/-- The port stage leaves browser, page and client untouched. -/
theorem portStage_session_fields (s : Session) (w : World) :
    (portStage s w).session.browser = s.browser ∧
    (portStage s w).session.page = s.page ∧
    (portStage s w).session.mcpClient = s.mcpClient := by
  by_cases hT : portTruthy s.remoteDebuggingPort = true
  · simp [portStage_stored s w hT]
  · rw [Bool.not_eq_true] at hT
    cases hQ : w.portQueue with
    | nil => simp [portStage, hT, allocAssign, allocCall, hQ]
    | cons r rest =>
        cases r <;> simp [portStage, hT, allocAssign, allocCall, hQ]

/-- launchBrowser preserves: a stored page implies a stored browser. -/
theorem launchBrowser_inv (cfg : Config) (s : Session) (w : World)
    (port : Nat) (h : s.page.isSome = true → s.browser.isSome = true) :
    (launchBrowser cfg s w port).session.page.isSome = true →
    (launchBrowser cfg s w port).session.browser.isSome = true := by
  cases hL : w.launchBehavior with
  | launchThrows => simpa [launchBrowser, hL] using h
  | pageThrows => simp [launchBrowser, hL]
  | ok => simp [launchBrowser, hL]

/-- The browser stage preserves: a stored page implies a stored browser. -/
theorem browserStage_inv (cfg : Config) (s : Session) (w : World)
    (port : Nat) (h : s.page.isSome = true → s.browser.isSome = true) :
    (browserStage cfg s w port).session.page.isSome = true →
    (browserStage cfg s w port).session.browser.isSome = true := by
  cases hb : s.browser with
  | none =>
      have he : browserStage cfg s w port = launchBrowser cfg s w port := by
        simp [browserStage, hb]
      rw [he]
      exact launchBrowser_inv cfg s w port h
  | some b =>
      by_cases hc : w.isConnected b
      · have he : browserStage cfg s w port = ⟨Except.ok (), s, w, []⟩ := by
          simp [browserStage, hb, hc]
        rw [he]
        exact h
      · have he : browserStage cfg s w port = launchBrowser cfg s w port := by
          simp [browserStage, hb, hc]
        rw [he]
        exact launchBrowser_inv cfg s w port h

/-- The browser-then-client composition preserves the invariant. -/
theorem afterPort_inv (cfg : Config) (s1 : Session) (w1 : World)
    (port : Nat) (h : s1.page.isSome = true → s1.browser.isSome = true) :
    (afterPort cfg s1 w1 port).session.page.isSome = true →
    (afterPort cfg s1 w1 port).session.browser.isSome = true := by
  have hBinv := browserStage_inv cfg s1 w1 port h
  rcases hB : browserStage cfg s1 w1 port with ⟨rB, s2, w2, tr2⟩
  rw [hB] at hBinv
  dsimp only at hBinv
  cases rB with
  | error e =>
      have hEq : afterPort cfg s1 w1 port = ⟨Except.error e, s2, w2, tr2⟩ := by
        unfold afterPort
        simp only [hB]
      rw [hEq]
      exact hBinv
  | ok u =>
      rcases hC : clientStage cfg s2 w2 port with ⟨rC, s3, w3, tr3⟩
      have hCs := clientStage_spec cfg s2 w2 port
      rw [hC] at hCs
      dsimp only at hCs
      have hEq : afterPort cfg s1 w1 port = ⟨rC, s3, w3, tr2 ++ tr3⟩ := by
        unfold afterPort
        simp only [hB, hC]
      rw [hEq]
      show s3.page.isSome = true → s3.browser.isSome = true
      rw [hCs.2.2.1, hCs.2.1]
      exact hBinv

/-- ensureBrowserLaunched preserves the invariant. -/
theorem ensure_inv (cfg : Config) (s : Session) (w : World)
    (h : s.page.isSome = true → s.browser.isSome = true) :
    (ensureBrowserLaunched cfg s w).session.page.isSome = true →
    (ensureBrowserLaunched cfg s w).session.browser.isSome = true := by
  have hPF := portStage_session_fields s w
  rcases hP : portStage s w with ⟨rP, s1, w1, tr1⟩
  rw [hP] at hPF
  dsimp only at hPF
  have h1 : s1.page.isSome = true → s1.browser.isSome = true := by
    rw [hPF.1, hPF.2.1]
    exact h
  cases rP with
  | error e =>
      have hEq : ensureBrowserLaunched cfg s w =
          ⟨Except.error e, s1, w1, tr1⟩ := by
        unfold ensureBrowserLaunched
        simp only [hP]
      rw [hEq]
      exact h1
  | ok p =>
      have hAinv := afterPort_inv cfg s1 w1 p h1
      rcases hAP : afterPort cfg s1 w1 p with ⟨rA, s2, w2, tr2⟩
      rw [hAP] at hAinv
      dsimp only at hAinv
      have hEq : ensureBrowserLaunched cfg s w = ⟨rA, s2, w2, tr1 ++ tr2⟩ := by
        unfold ensureBrowserLaunched
        simp only [hP, hAP]
      rw [hEq]
      exact hAinv

/-- getPage preserves the invariant. -/
theorem getPage_inv (cfg : Config) (s : Session) (w : World)
    (h : s.page.isSome = true → s.browser.isSome = true) :
    (getPage cfg s w).session.page.isSome = true →
    (getPage cfg s w).session.browser.isSome = true := by
  cases hpg : s.page with
  | some pg =>
      have hg : getPage cfg s w = ⟨Except.ok pg, s, w, []⟩ := by
        simp [getPage, hpg]
      rw [hg]
      exact h
  | none =>
      have hei := ensure_inv cfg s w h
      rcases hE : ensureBrowserLaunched cfg s w with ⟨r, s', w', tr⟩
      rw [hE] at hei
      dsimp only at hei
      cases r with
      | error e =>
          have hg : getPage cfg s w = ⟨Except.error e, s', w', tr⟩ := by
            simp [getPage, hpg, hE]
          rw [hg]
          exact hei
      | ok u =>
          cases hpg2 : s'.page with
          | some pg =>
              have hg : getPage cfg s w = ⟨Except.ok pg, s', w', tr⟩ := by
                simp [getPage, hpg, hE, hpg2]
              rw [hg]
              exact hei
          | none =>
              have hg : getPage cfg s w =
                  ⟨Except.error BmError.pageNotAvailable, s', w', tr⟩ := by
                simp [getPage, hpg, hE, hpg2]
              rw [hg]
              exact hei

/-- getMcpClient preserves the invariant. -/
theorem getMcpClient_inv (cfg : Config) (s : Session) (w : World)
    (h : s.page.isSome = true → s.browser.isSome = true) :
    (getMcpClient cfg s w).session.page.isSome = true →
    (getMcpClient cfg s w).session.browser.isSome = true := by
  by_cases hfast : s.mcpClient.isSome ∧
      w.statusOf (s.mcpClient.getD 0) = "connected"
  · have hg : getMcpClient cfg s w =
        ⟨Except.ok (s.mcpClient.getD 0), s, w, []⟩ := by
      simp [getMcpClient, hfast]
    rw [hg]
    exact h
  · have hei := ensure_inv cfg s w h
    rcases hE : ensureConnection cfg s w with ⟨r, s', w', tr⟩
    rw [show ensureBrowserLaunched cfg s w = ⟨r, s', w', tr⟩ from hE] at hei
    dsimp only at hei
    cases r with
    | error e =>
        have hg : getMcpClient cfg s w = ⟨Except.error e, s', w', tr⟩ := by
          simp [getMcpClient, hfast, hE]
        rw [hg]
        exact hei
    | ok u =>
        cases hc : s'.mcpClient with
        | some c =>
            have hg : getMcpClient cfg s w = ⟨Except.ok c, s', w', tr⟩ := by
              simp [getMcpClient, hfast, hE, hc]
            rw [hg]
            exact hei
        | none =>
            have hg : getMcpClient cfg s w =
                ⟨Except.error BmError.clientInitError, s', w', tr⟩ := by
              simp [getMcpClient, hfast, hE, hc]
            rw [hg]
            exact hei

/-- In every reachable state a stored Page implies a stored
BrowserHandle. -/
theorem reachable_page_browser (cfg : Config) (s : Session) (w : World)
    (h : Reachable cfg s w) :
    s.page.isSome = true → s.browser.isSome = true := by
  induction h with
  | init w => intro hp; simp [Session.empty] at hp
  | ensure hR ih => exact ensure_inv cfg _ _ ih
  | page hR ih => exact getPage_inv cfg _ _ ih
  | client hR ih => exact getMcpClient_inv cfg _ _ ih
  | kill b hR ih => exact ih
  | statusChange c st hR ih => exact ih

/-- A successful getPage returns precisely the stored page of the state
it leaves behind. -/
theorem getPage_ok_page (cfg : Config) (s : Session) (w : World) (pg : Nat)
    (h : (getPage cfg s w).result = Except.ok pg) :
    (getPage cfg s w).session.page = some pg := by
  cases hpg : s.page with
  | some pg0 =>
      have hg : getPage cfg s w = ⟨Except.ok pg0, s, w, []⟩ := by
        simp [getPage, hpg]
      rw [hg] at h ⊢
      simp at h
      subst h
      exact hpg
  | none =>
      rcases hE : ensureBrowserLaunched cfg s w with ⟨r, s', w', tr⟩
      cases r with
      | error e =>
          have hg : getPage cfg s w = ⟨Except.error e, s', w', tr⟩ := by
            simp [getPage, hpg, hE]
          rw [hg] at h
          simp at h
      | ok u =>
          cases hpg2 : s'.page with
          | some pg' =>
              have hg : getPage cfg s w = ⟨Except.ok pg', s', w', tr⟩ := by
                simp [getPage, hpg, hE, hpg2]
              rw [hg] at h ⊢
              simp at h
              subst h
              exact hpg2
          | none =>
              have hg : getPage cfg s w =
                  ⟨Except.error BmError.pageNotAvailable, s', w', tr⟩ := by
                simp [getPage, hpg, hE, hpg2]
              rw [hg] at h
              simp at h

/-! ## Concrete fixtures for witnesses -/

/-- A configuration with browserAgentSettings.headless = false and an MCP
client manager present. -/
def cfgA : Config := ⟨some false, true⟩

/-- A benign world: one successful port allocation queued, everything else
succeeds. -/
def wA : World :=
  ⟨[some 54213], 0, [], [], [], LaunchBehavior.ok,
    DiscoverBehavior.registers "disconnected", true, true⟩

/-- A world whose single queued allocation rejects. -/
def wFail : World :=
  ⟨[none], 0, [], [], [], LaunchBehavior.ok, DiscoverBehavior.noop, true, true⟩

/-- A session with all four fields established. -/
def sConn : Session := ⟨some 7, some 3, some 4, some 54213⟩

/-- A world in which sConn's browser is connected and its client reports
connected. -/
def wConn : World :=
  ⟨[], 8, [3], [("chrome-devtools-54213", 7)], [(7, "connected")],
    LaunchBehavior.ok, DiscoverBehavior.noop, true, true⟩

/-! ## Claim theorems -/

/-- C1: starting with no stored port and a successful allocation
available, any number of further ensureBrowserLaunched calls (whatever
happens in them, failures of later stages included) invoke the allocator
exactly once in total, the first call storing the allocated port; and any
single call on a session that already stores a (nonzero) port reuses it
unconditionally, in every world, never calling the allocator. -/
theorem ensure_allocates_port_once (cfg : Config) (s : Session) (w : World)
    (p n : Nat) (h0 : s.remoteDebuggingPort = none)
    (hq : w.portQueue.head? = some (some p)) (hp : p ≠ 0) :
    ((ensureIter cfg (n + 1) s w).1.remoteDebuggingPort = some p ∧
      allocCount (ensureIter cfg (n + 1) s w).2.2 = 1) ∧
    (∀ (s' : Session) (w' : World), s'.remoteDebuggingPort = some p →
      (ensureBrowserLaunched cfg s' w').session.remoteDebuggingPort =
          some p ∧
      allocCount (ensureBrowserLaunched cfg s' w').trace = 0) := by
  constructor
  · have hT : portTruthy s.remoteDebuggingPort = false := by
      simp [portTruthy, h0]
    have hfirst := ensure_fresh_port cfg s w p hT hq
    rcases hE : ensureBrowserLaunched cfg s w with ⟨r, s', w', tr⟩
    rw [hE] at hfirst
    have hrest := ensureIter_stored cfg n s' w' p hfirst.1 hp
    rcases hI : ensureIter cfg n s' w' with ⟨s2, w2, tr2⟩
    rw [hI] at hrest
    have hEq : ensureIter cfg (n + 1) s w = (s2, w2, tr ++ tr2) := by
      unfold ensureIter
      simp only [hE, hI]
    rw [hEq]
    refine ⟨hrest.1, ?_⟩
    show allocCount (tr ++ tr2) = 1
    rw [allocCount_append]
    have h1 : allocCount tr = 1 := hfirst.2
    have h2 : allocCount tr2 = 0 := hrest.2
    omega
  · exact fun s' w' h' => ensure_stored_port cfg s' w' p h' hp

theorem ensure_allocates_port_once_witness :
    ((ensureIter cfgA 2 Session.empty wA).1.remoteDebuggingPort =
        some 54213 ∧
      allocCount (ensureIter cfgA 2 Session.empty wA).2.2 = 1) ∧
    (∀ (s' : Session) (w' : World), s'.remoteDebuggingPort = some 54213 →
      (ensureBrowserLaunched cfgA s' w').session.remoteDebuggingPort =
          some 54213 ∧
      allocCount (ensureBrowserLaunched cfgA s' w').trace = 0) :=
  ensure_allocates_port_once cfgA Session.empty wA 54213 1 rfl rfl
    (by decide)

/-- C2: in a call whose port stage succeeds with port p, a stored and
connected browser suppresses the launch entirely; with no stored browser
or a disconnected one (and a functioning driver), launch is performed
exactly once with arguments carrying the stored port, and the browser and
page fields are overwritten with the newly launched browser and the page
opened from its context, whatever the client stage then does. -/
theorem ensure_browser_stage (cfg : Config) (s : Session) (w : World)
    (p : Nat) (hP : (portStage s w).result = Except.ok p) :
    (∀ b, s.browser = some b → w.isConnected b = true →
      launchEvents (ensureBrowserLaunched cfg s w).trace = []) ∧
    ((s.browser = none ∨
        ∃ b, s.browser = some b ∧ w.isConnected b = false) →
      w.launchBehavior = LaunchBehavior.ok →
      launchEvents (ensureBrowserLaunched cfg s w).trace =
        [Event.launch (cfg.headless?.getD false) (launchArgs p)] ∧
      (ensureBrowserLaunched cfg s w).session.browser = some w.nextId ∧
      (ensureBrowserLaunched cfg s w).session.page =
          some (w.nextId + 1) ∧
      (ensureBrowserLaunched cfg s w).session.remoteDebuggingPort =
          some p ∧
      ("--remote-debugging-port=" ++ toString p) ∈ launchArgs p) := by
  have hP0 := portStage_ok_spec s w p hP
  rcases hPS : portStage s w with ⟨rP, s1, w1, tr1⟩
  rw [hPS] at hP hP0
  dsimp only at hP0
  simp at hP
  subst hP
  have hs1 : s1 = { s with remoteDebuggingPort := some p } := hP0.1
  have hw1n : w1.nextId = w.nextId := hP0.2.1
  have hw1a : w1.alive = w.alive := hP0.2.2.1
  have hw1L : w1.launchBehavior = w.launchBehavior := hP0.2.2.2.2.2.1
  have hltr : launchEvents tr1 = [] := hP0.2.2.2.2.2.2.2.2.1
  constructor
  · intro b hb hc
    have hb1 : s1.browser = some b := by rw [hs1]; exact hb
    have hc1 : w1.isConnected b = true := by
      unfold World.isConnected
      rw [hw1a]
      exact hc
    have hBeq : browserStage cfg s1 w1 p = ⟨Except.ok (), s1, w1, []⟩ := by
      simp [browserStage, hb1, hc1]
    rcases hC : clientStage cfg s1 w1 p with ⟨rC, s3, w3, tr3⟩
    have hCs := clientStage_spec cfg s1 w1 p
    rw [hC] at hCs
    dsimp only at hCs
    have hAPeq : afterPort cfg s1 w1 p = ⟨rC, s3, w3, [] ++ tr3⟩ := by
      unfold afterPort
      simp only [hBeq, hC]
    have hEeq : ensureBrowserLaunched cfg s w =
        ⟨rC, s3, w3, tr1 ++ ([] ++ tr3)⟩ := by
      unfold ensureBrowserLaunched
      simp only [hPS, hAPeq]
    rw [hEeq]
    show launchEvents (tr1 ++ ([] ++ tr3)) = []
    rw [launchEvents_append, launchEvents_append, hltr,
      hCs.2.2.2.2.2.2.2.1]
    rfl
  · intro hb hLok
    have hw1ok : w1.launchBehavior = LaunchBehavior.ok := by
      rw [hw1L]
      exact hLok
    have hLeq : launchBrowser cfg s1 w1 p =
        ⟨Except.ok (),
          { s1 with browser := some w1.nextId,
                    page := some (w1.nextId + 1) },
          { w1 with nextId := w1.nextId + 2, alive := w1.nextId :: w1.alive },
          [Event.launch (cfg.headless?.getD false) (launchArgs p)]⟩ := by
      simp [launchBrowser, hw1ok]
    have hBeq : browserStage cfg s1 w1 p =
        ⟨Except.ok (),
          { s1 with browser := some w1.nextId,
                    page := some (w1.nextId + 1) },
          { w1 with nextId := w1.nextId + 2, alive := w1.nextId :: w1.alive },
          [Event.launch (cfg.headless?.getD false) (launchArgs p)]⟩ := by
      rcases hb with hbn | ⟨b, hbs, hbc⟩
      · have hb1 : s1.browser = none := by rw [hs1]; exact hbn
        rw [browserStage.eq_def]
        rw [hb1]
        exact hLeq
      · have hb1 : s1.browser = some b := by rw [hs1]; exact hbs
        have hc1 : w1.isConnected b = false := by
          unfold World.isConnected
          rw [hw1a]
          exact hbc
        rw [browserStage.eq_def]
        rw [hb1]
        simp only [hc1, Bool.false_eq_true, if_false]
        exact hLeq
    rcases hC : clientStage cfg
        { s1 with browser := some w1.nextId, page := some (w1.nextId + 1) }
        { w1 with nextId := w1.nextId + 2, alive := w1.nextId :: w1.alive }
        p with ⟨rC, s3, w3, tr3⟩
    have hCs := clientStage_spec cfg
      { s1 with browser := some w1.nextId, page := some (w1.nextId + 1) }
      { w1 with nextId := w1.nextId + 2, alive := w1.nextId :: w1.alive } p
    rw [hC] at hCs
    dsimp only at hCs
    have hAPeq : afterPort cfg s1 w1 p =
        ⟨rC, s3, w3,
          [Event.launch (cfg.headless?.getD false) (launchArgs p)] ++ tr3⟩ := by
      unfold afterPort
      simp only [hBeq, hC]
    have hEeq : ensureBrowserLaunched cfg s w =
        ⟨rC, s3, w3,
          tr1 ++
            ([Event.launch (cfg.headless?.getD false) (launchArgs p)] ++
              tr3)⟩ := by
      unfold ensureBrowserLaunched
      simp only [hPS, hAPeq]
    rw [hEeq]
    refine ⟨?_, ?_, ?_, ?_, ?_⟩
    · show launchEvents
        (tr1 ++
          ([Event.launch (cfg.headless?.getD false) (launchArgs p)] ++
            tr3)) = [Event.launch (cfg.headless?.getD false) (launchArgs p)]
      rw [launchEvents_append, launchEvents_append, hltr,
        hCs.2.2.2.2.2.2.2.1]
      rfl
    · show s3.browser = some w.nextId
      rw [hCs.2.1, hw1n]
    · show s3.page = some (w.nextId + 1)
      rw [hCs.2.2.1, hw1n]
    · show s3.remoteDebuggingPort = some p
      rw [hCs.1, hs1]
    · simp [launchArgs]

theorem ensure_browser_stage_witness :
    launchEvents (ensureBrowserLaunched cfgA Session.empty wA).trace =
      [Event.launch (cfgA.headless?.getD false) (launchArgs 54213)] ∧
    (ensureBrowserLaunched cfgA Session.empty wA).session.browser =
        some wA.nextId ∧
    (ensureBrowserLaunched cfgA Session.empty wA).session.page =
        some (wA.nextId + 1) ∧
    (ensureBrowserLaunched cfgA Session.empty wA).session.remoteDebuggingPort =
        some 54213 ∧
    ("--remote-debugging-port=" ++ toString 54213) ∈ launchArgs 54213 :=
  (ensure_browser_stage cfgA Session.empty wA 54213 (by decide)).2
    (Or.inl rfl) rfl

/-- C8: in the client stage with stored port p and the manager available:
when the registry holds no client under the port-derived name and the
registration registers one, exactly one registration is performed, named
for p and passing --browser-url followed by the local URL for p; the
resolved client is then connected exactly once when its status is not
connected (given connect succeeds) and not connected at all when it is,
and in both cases it is stored.  When a client already exists under the
name, no registration is performed at all. -/
theorem connectMcp_registration_contract (cfg : Config) (s : Session)
    (w : World) (p : Nat) (hm : cfg.hasMcpManager = true) :
    (∀ st, w.getClient (clientName p) = none →
      w.discoverBehavior = DiscoverBehavior.registers st →
      discoverEvents (connectMcp cfg s w p).trace =
        [Event.discover (clientName p) "npx" (mcpArgs p)] ∧
      ["--browser-url", "http://127.0.0.1:" ++ toString p] <:+: mcpArgs p ∧
      (st = "connected" →
        connectEvents (connectMcp cfg s w p).trace = [] ∧
        (connectMcp cfg s w p).session.mcpClient = some w.nextId) ∧
      (st ≠ "connected" → w.connectOk = true →
        connectEvents (connectMcp cfg s w p).trace =
          [Event.clientConnect w.nextId] ∧
        (connectMcp cfg s w p).session.mcpClient = some w.nextId)) ∧
    (∀ c, w.getClient (clientName p) = some c →
      discoverEvents (connectMcp cfg s w p).trace = []) := by
  constructor
  · intro st hnone hreg
    have hinf : ["--browser-url", "http://127.0.0.1:" ++ toString p] <:+:
        mcpArgs p :=
      ⟨["-y", "chrome-devtools-mcp@latest"], [], by simp [mcpArgs]⟩
    by_cases hstc : st = "connected"
    · subst hstc
      refine ⟨?_, hinf, fun _ => ⟨?_, ?_⟩, fun hne _ => absurd rfl hne⟩ <;>
        simp [connectMcp, hm, hnone, hreg, connectAndStore, World.statusOf,
          List.lookup, discoverEvents, connectEvents, Event.isDiscover,
          Event.isClientConnect]
    · refine ⟨?_, hinf, fun heq => absurd heq hstc, fun _ hco => ⟨?_, ?_⟩⟩
      · by_cases hco2 : w.connectOk = true <;>
          simp [connectMcp, hm, hnone, hreg, connectAndStore, World.statusOf,
            List.lookup, hstc, hco2, discoverEvents, Event.isDiscover]
      · simp [connectMcp, hm, hnone, hreg, connectAndStore, World.statusOf,
          List.lookup, hstc, hco, connectEvents, Event.isDiscover,
          Event.isClientConnect]
      · simp [connectMcp, hm, hnone, hreg, connectAndStore, World.statusOf,
          List.lookup, hstc, hco]
  · intro c hsome
    have hCeq : connectMcp cfg s w p = connectAndStore s w c [] := by
      simp [connectMcp, hm, hsome]
    rw [hCeq]
    have h := connectAndStore_spec s w c []
    rw [h.2.2.2.2.2.2.2.2.1]
    rfl

theorem connectMcp_registration_contract_witness :
    discoverEvents (connectMcp cfgA Session.empty wA 54213).trace =
      [Event.discover (clientName 54213) "npx" (mcpArgs 54213)] ∧
    connectEvents (connectMcp cfgA Session.empty wA 54213).trace =
      [Event.clientConnect wA.nextId] ∧
    (connectMcp cfgA Session.empty wA 54213).session.mcpClient =
      some wA.nextId := by
  have h := (connectMcp_registration_contract cfgA Session.empty wA 54213
    rfl).1 "disconnected" rfl rfl
  exact ⟨h.1, (h.2.2.2 (by decide) rfl).1, (h.2.2.2 (by decide) rfl).2⟩

/-- C6: with a Page stored, getPage returns exactly that page and touches
nothing; with none stored it runs ensureBrowserLaunched, adopts its
session, world and trace, propagates its error if it failed, and
otherwise returns the now-stored page, or fails with the page-not-
available error when the page is still absent. -/
theorem getPage_contract (cfg : Config) (s : Session) (w : World) :
    (∀ pg, s.page = some pg → getPage cfg s w = ⟨Except.ok pg, s, w, []⟩) ∧
    (s.page = none →
      (getPage cfg s w).session = (ensureBrowserLaunched cfg s w).session ∧
      (getPage cfg s w).world = (ensureBrowserLaunched cfg s w).world ∧
      (getPage cfg s w).trace = (ensureBrowserLaunched cfg s w).trace ∧
      (∀ e, (ensureBrowserLaunched cfg s w).result = Except.error e →
        (getPage cfg s w).result = Except.error e) ∧
      ((ensureBrowserLaunched cfg s w).result = Except.ok () →
        (∀ pg, (ensureBrowserLaunched cfg s w).session.page = some pg →
          (getPage cfg s w).result = Except.ok pg) ∧
        ((ensureBrowserLaunched cfg s w).session.page = none →
          (getPage cfg s w).result =
            Except.error BmError.pageNotAvailable))) := by
  constructor
  · intro pg hpg
    simp [getPage, hpg]
  · intro hnone
    rcases hE : ensureBrowserLaunched cfg s w with ⟨r, s', w', tr⟩
    cases r with
    | error e =>
        have hg : getPage cfg s w = ⟨Except.error e, s', w', tr⟩ := by
          simp [getPage, hnone, hE]
        rw [hg]
        refine ⟨rfl, rfl, rfl, ?_, ?_⟩
        · intro e' he'
          simp_all
        · intro hok
          simp_all
    | ok u =>
        cases u
        cases hpg : s'.page with
        | some pg =>
            have hg : getPage cfg s w = ⟨Except.ok pg, s', w', tr⟩ := by
              simp [getPage, hnone, hE, hpg]
            rw [hg]
            refine ⟨rfl, rfl, rfl, ?_, fun _ => ⟨?_, ?_⟩⟩
            · intro e' he'
              simp_all
            · intro pg' hpg'
              simp_all
            · intro hn2
              simp_all
        | none =>
            have hg : getPage cfg s w =
                ⟨Except.error BmError.pageNotAvailable, s', w', tr⟩ := by
              simp [getPage, hnone, hE, hpg]
            rw [hg]
            refine ⟨rfl, rfl, rfl, ?_, fun _ => ⟨?_, ?_⟩⟩
            · intro e' he'
              simp_all
            · intro pg' hpg'
              simp_all
            · intro _
              rfl

/-- C9: one run of getFreePort either resolves with exactly the nonzero
numeric port the OS reported back from the socket bound to port 0, the
socket being closed before the promise resolves, or rejects when the
socket errors or the read-back port is unusable (absent or 0); it binds
at most one socket (no retries) and never resolves with 0. -/
theorem getFreePort_contract (e : Bool) (a : SockAddr) :
    (∀ p, (getFreePortRun e a).1 = Except.ok p →
      a = SockAddr.ipPort p ∧ p ≠ 0 ∧
      (getFreePortRun e a).2 =
        [NetEvent.listen 0, NetEvent.closeSock, NetEvent.resolved p]) ∧
    (e = true →
      (getFreePortRun e a).1 = Except.error AllocError.socketError) ∧
    ((addrPort a).getD 0 = 0 →
      ∃ er, (getFreePortRun e a).1 = Except.error er) ∧
    ((getFreePortRun e a).2.filter NetEvent.isListen).length ≤ 1 := by
  cases e with
  | true =>
      refine ⟨?_, ?_, ?_, ?_⟩ <;>
        simp [getFreePortRun, NetEvent.isListen]
  | false =>
      cases a with
      | ipPort q =>
          by_cases hq : q = 0
          · subst hq
            refine ⟨?_, ?_, ?_, ?_⟩ <;>
              simp [getFreePortRun, addrPort, NetEvent.isListen]
          · refine ⟨?_, ?_, ?_, ?_⟩ <;>
              simp [getFreePortRun, addrPort, hq, NetEvent.isListen]
      | unixPath str =>
          refine ⟨?_, ?_, ?_, ?_⟩ <;>
            simp [getFreePortRun, addrPort, NetEvent.isListen]
      | nullAddr =>
          refine ⟨?_, ?_, ?_, ?_⟩ <;>
            simp [getFreePortRun, addrPort, NetEvent.isListen]

/-- C7: the client-name derivation is a pure function of the port alone
(clientName takes nothing but the port), and it is injective: the derived
names are equal exactly when the ports are equal. -/
theorem clientName_injective (p1 p2 : Nat) :
    clientName p1 = clientName p2 ↔ p1 = p2 := by
  constructor
  · intro h
    have h3 : toString p1 = toString p2 :=
      string_append_left_cancel (a := "chrome-devtools-") h
    exact natRepr_injective h3
  · intro h
    rw [h]

/-- C3: when a client is stored and reports connected, getMcpClient
returns it immediately: the result is that client, the session and world
are untouched, and the trace is empty, so no allocation, liveness check,
launch, registration or connect is performed. -/
theorem getMcpClient_connected_fast_path (cfg : Config) (s : Session)
    (w : World) (c : Nat) (hc : s.mcpClient = some c)
    (hst : w.statusOf c = "connected") :
    getMcpClient cfg s w = ⟨Except.ok c, s, w, []⟩ := by
  simp [getMcpClient, hc, hst]

theorem getMcpClient_connected_fast_path_witness :
    getMcpClient cfgA sConn wConn = ⟨Except.ok 7, sConn, wConn, []⟩ :=
  getMcpClient_connected_fast_path cfgA sConn wConn 7 rfl rfl

/-- C4: when no truthy port is stored and the allocator rejects,
ensureBrowserLaunched propagates AllocationError, leaves the session
exactly as it was (stored browser and client included), performs no
launch, registration or connect (the trace is the single failed
allocation), and does not change which browsers are alive or what is
registered. -/
theorem alloc_failure_propagates (cfg : Config) (s : Session) (w : World)
    (hp : portTruthy s.remoteDebuggingPort = false)
    (hq : w.portQueue.head? = some none) :
    (ensureBrowserLaunched cfg s w).result =
        Except.error BmError.allocationError ∧
    (ensureBrowserLaunched cfg s w).session = s ∧
    (ensureBrowserLaunched cfg s w).trace = [Event.portAlloc none] ∧
    (ensureBrowserLaunched cfg s w).world.alive = w.alive ∧
    (ensureBrowserLaunched cfg s w).world.registry = w.registry := by
  cases hQ : w.portQueue with
  | nil => rw [hQ] at hq; simp at hq
  | cons r rest =>
      rw [hQ] at hq
      simp at hq
      subst hq
      simp [ensureBrowserLaunched, portStage, hp, allocAssign, allocCall, hQ]

theorem alloc_failure_propagates_witness :
    (ensureBrowserLaunched cfgA Session.empty wFail).result =
        Except.error BmError.allocationError ∧
    (ensureBrowserLaunched cfgA Session.empty wFail).session =
        Session.empty ∧
    (ensureBrowserLaunched cfgA Session.empty wFail).trace =
        [Event.portAlloc none] ∧
    (ensureBrowserLaunched cfgA Session.empty wFail).world.alive =
        wFail.alive ∧
    (ensureBrowserLaunched cfgA Session.empty wFail).world.registry =
        wFail.registry :=
  alloc_failure_propagates cfgA Session.empty wFail rfl rfl

/-- C10: keyCombination is observationally identical to pressKey at every
input: the whole outcome (result, state, trace) coincides, and any
successful run issues exactly one press_key protocol call carrying the
key string and returns the pressKey result record. -/
theorem keyCombination_equiv_pressKey (cfg : Config) (s : Session)
    (w : World) (k : String) :
    keyCombination cfg s w k = pressKey cfg s w k ∧
    (∀ r, (keyCombination cfg s w k).result = Except.ok r →
      r = ⟨some ("Pressed key \"" ++ k ++ "\""), none, none⟩ ∧
      callToolEvents (keyCombination cfg s w k).trace =
        [Event.callTool "press_key" [("key", k)]]) := by
  refine ⟨rfl, ?_⟩
  intro r hr
  unfold keyCombination at hr ⊢
  have hni := getMcpClient_no_callTool cfg s w
  rcases hG : getMcpClient cfg s w with ⟨rG, s1, w1, tr1⟩
  rw [hG] at hni
  cases rG with
  | error e =>
      have hp : pressKey cfg s w k = ⟨Except.error e, s1, w1, tr1⟩ := by
        simp [pressKey, hG]
      rw [hp] at hr
      simp at hr
  | ok c =>
      by_cases hok : w1.callToolOk = true
      · have hp : pressKey cfg s w k =
            ⟨Except.ok ⟨some ("Pressed key \"" ++ k ++ "\""), none, none⟩,
              s1, w1, tr1 ++ [Event.callTool "press_key" [("key", k)]]⟩ := by
          simp [pressKey, hG, callTool, hok]
        rw [hp] at hr ⊢
        simp at hr
        subst hr
        refine ⟨rfl, ?_⟩
        show callToolEvents
          (tr1 ++ [Event.callTool "press_key" [("key", k)]]) =
          [Event.callTool "press_key" [("key", k)]]
        rw [callToolEvents_append, hni]
        rfl
      · have hp : pressKey cfg s w k =
            ⟨Except.error BmError.callToolError, s1, w1,
              tr1 ++ [Event.callTool "press_key" [("key", k)]]⟩ := by
          simp [pressKey, hG, callTool, hok]
        rw [hp] at hr
        simp at hr

/-- C5 counterexample: from a fresh session, one successful ensure stores
browser 0 and page 1; after the browser process dies externally, the
state is still reachable, the stored browser reports not connected, yet
getPage hands out the stored page. -/
theorem getPage_stale_page_counterexample :
    Reachable cfgA (ensureConnection cfgA Session.empty wA).session
      (((ensureConnection cfgA Session.empty wA).world).killBrowser 0) ∧
    (ensureConnection cfgA Session.empty wA).session.browser = some 0 ∧
    World.isConnected
      (((ensureConnection cfgA Session.empty wA).world).killBrowser 0) 0 =
        false ∧
    (getPage cfgA (ensureConnection cfgA Session.empty wA).session
        (((ensureConnection cfgA Session.empty wA).world).killBrowser 0)).result =
      Except.ok 1 :=
  ⟨Reachable.kill 0 (Reachable.ensure (Reachable.init wA)), by decide,
    by decide, by decide⟩

/-- C5 (amended): in every reachable state a stored Page implies a stored
BrowserHandle, and a successful getPage always leaves (and returns a page
of) a state whose BrowserHandle is present; but the handle need not
report connected, because getPage does not re-check liveness when a page
is already stored (see the counterexample). -/
theorem getPage_browser_present (cfg : Config) (s : Session) (w : World)
    (hR : Reachable cfg s w) (pg : Nat)
    (hok : (getPage cfg s w).result = Except.ok pg) :
    (getPage cfg s w).session.browser.isSome = true ∧
    (s.page.isSome = true → s.browser.isSome = true) := by
  refine ⟨?_, reachable_page_browser cfg s w hR⟩
  have hpost : Reachable cfg (getPage cfg s w).session
      (getPage cfg s w).world := Reachable.page hR
  have hinv := reachable_page_browser cfg _ _ hpost
  apply hinv
  rw [getPage_ok_page cfg s w pg hok]
  rfl

theorem getPage_browser_present_witness :
    (getPage cfgA Session.empty wA).session.browser.isSome = true ∧
    (Session.empty.page.isSome = true →
      Session.empty.browser.isSome = true) :=
  getPage_browser_present cfgA Session.empty wA (Reachable.init wA) 1
    (by decide)

end GeminiCli
